import Mathlib

/-!
Verification of the inference-serving engine of the weather platform
(`src/weather_platform/web/predictor.py`), shallowly embedded in Lean.

Embedding conventions:
* A Python `datetime` is modelled by `PyDateTime`: its wall-clock reading as
  minutes since 1970-01-01T00:00 plus an optional UTC-offset (in minutes;
  `none` models a naive datetime).  `datetime ± timedelta(hours=h)` shifts the
  wall clock by `60*h` minutes and keeps the offset; `dt.replace(tzinfo=None)`
  drops the offset; `dt.hour` is the wall-clock hour of day.
* The `(year, month, day, hour)` column quadruple that `save_temperature` /
  `load_temperature` match on is, for wall-clock readings, in bijection with
  the hour-truncated wall clock `minutes.fdiv 60` (proleptic Gregorian
  calendar); the store key is therefore embedded as that integer, and the
  calendar fields `month`/`day` used by `_build_features` are computed by the
  standard civil-from-days conversion.
* Python floats standing for temperatures, predictions and SHAP values are
  modelled as `ℚ`; the float arithmetic performed by the code on them is
  plain `abs`, `+`, `/`, `*`, comparisons, carried over exactly.
* A missing numeric value (`None` carried into the feature row, or the
  `np.nan` default of `features_dict.get`) is modelled as `none : Option ℚ`:
  both are the model framework's missing-value sentinel.
* The trained regressor (`model.predict` on a single feature row) is an
  opaque function `Model := List (Option ℚ) → ℚ`; the SHAP explainer's
  outputs are likewise taken as opaque inputs.
* The parquet file behind the Temperature Store is the list of its rows in
  append order; `pd.concat` appends, `match.iloc[0]` is the first matching
  row in that order.
-/

/-- Wall-clock datetime: minutes since the 1970-01-01T00:00 wall-clock origin,
plus an optional UTC offset in minutes (`none` = naive datetime). -/
structure PyDateTime where
  minutes : ℤ
  tz : Option ℤ
deriving DecidableEq, Repr

/-- Model of `dt.replace(tzinfo=None)`: drop the offset, keep the wall clock. -/
def naive (dt : PyDateTime) : PyDateTime := ⟨dt.minutes, none⟩

/-- Model of `dt + timedelta(hours=h)` (wall clock shifts, offset kept). -/
def addHours (dt : PyDateTime) (h : ℤ) : PyDateTime := ⟨dt.minutes + 60 * h, dt.tz⟩

/-- Model of `dt - timedelta(hours=h)`. -/
def subHours (dt : PyDateTime) (h : ℤ) : PyDateTime := ⟨dt.minutes - 60 * h, dt.tz⟩

/-- Model of `dt.hour`: the wall-clock hour of day. -/
def hourOf (dt : PyDateTime) : ℤ := (dt.minutes.fdiv 60).emod 24

/-- The hour-truncated wall clock; stands for the `(year, month, day, hour)`
quadruple the store's rows are matched on (the two are in bijection for the
proleptic Gregorian calendar that Python's `datetime` uses). -/
def hourKey (dt : PyDateTime) : ℤ := dt.minutes.fdiv 60

/-- Day index (days since 1970-01-01) of a datetime's wall clock. -/
def dayIndex (dt : PyDateTime) : ℤ := dt.minutes.fdiv 1440

/-- Civil-from-days conversion (proleptic Gregorian): the `(year, month, day)`
shown on the wall-clock calendar for a given day index. -/
def civilFromDays (z0 : ℤ) : ℤ × ℤ × ℤ :=
  let z := z0 + 719468
  let era := z.fdiv 146097
  let doe := z - era * 146097
  let yoe := (doe - doe.fdiv 1460 + doe.fdiv 36524 - doe.fdiv 146096).fdiv 365
  let y := yoe + era * 400
  let doy := doe - (365 * yoe + yoe.fdiv 4 - yoe.fdiv 100)
  let mp := (5 * doy + 2).fdiv 153
  let d := doy - (153 * mp + 2).fdiv 5 + 1
  let m := mp + (if mp < 10 then 3 else -9)
  (if m ≤ 2 then y + 1 else y, m, d)

/-- Model of `dt.month`. -/
def monthOf (dt : PyDateTime) : ℤ := (civilFromDays (dayIndex dt)).2.1

/-- Model of `dt.day`. -/
def dayOf (dt : PyDateTime) : ℤ := (civilFromDays (dayIndex dt)).2.2

/-- One row of `temperatures.parquet`: the `(year, month, day, hour)` columns
(as the hour-truncated wall clock they encode), the stored temperature and the
`timestamp` column (`dt_naive.isoformat()`, kept as the datetime itself since
`isoformat` is injective on naive datetimes). -/
structure Observation where
  key : ℤ
  temperature : ℚ
  timestamp : PyDateTime
deriving DecidableEq, Repr

/-- The Temperature Store: rows of the parquet file in append order. -/
abbrev TempStore := List Observation

/-- Model of `WeatherPredictor.save_temperature`: truncate the (naive) wall
clock to the hour; if a row for that hour already exists the write is a no-op,
otherwise the new row is appended (`pd.concat`) and flushed. -/
def save_temperature (st : TempStore) (dt : PyDateTime) (temperature : ℚ) : TempStore :=
  let d := naive dt
  if st.any (fun r => r.key == hourKey d) then st
  else st ++ [⟨hourKey d, temperature, d⟩]

/-- Model of `WeatherPredictor.load_temperature`: first row matching the
hour-truncated (naive) wall clock, `none` when there is no match. -/
def load_temperature (st : TempStore) (dt : PyDateTime) : Option ℚ :=
  (st.find? (fun r => r.key == hourKey (naive dt))).map Observation.temperature

/-- Model of `WeatherPredictor.get_lag_temperatures`: the stored temperatures
for `dt - 1h, dt - 2h, ..., dt - numLags·1h`, in that order, each possibly
absent. -/
def get_lag_temperatures (st : TempStore) (dt : PyDateTime) (numLags : ℕ) : List (Option ℚ) :=
  (List.range numLags).map (fun i : ℕ => load_temperature st (subHours dt ((i : ℤ) + 1)))

/-- Big-endian decimal digits of `n` (empty for `0`), computed with explicit
fuel so that it reduces in the kernel; `digitsAux n n` is the digit list of
`n`. -/
def digitsAux : ℕ → ℕ → List ℕ
  | 0, _ => []
  | fuel + 1, n => if n = 0 then [] else digitsAux fuel (n / 10) ++ [n % 10]

/-- Decimal rendering of a natural number; agrees with Python's `str(i)` for
the positive `i` interpolated into f-strings by the code. -/
def natStr (n : ℕ) : String := String.mk ((digitsAux n n).map Nat.digitChar)

/-- The feature name `f'ft_temp_lag_{i}h'`. -/
def lagKey (i : ℕ) : String := "ft_temp_lag_" ++ natStr i ++ "h"

/-- Configuration the engine reads from the Kedro parameters: the lag depth
(`data_engineering.num_lags`), the reference date
(`data_engineering.reference_date`, as its wall-clock minutes) and the shared
feature schema (`data_science.feature_columns`). -/
structure Params where
  numLags : ℕ
  referenceMinutes : ℤ
  featureCols : List String

/-- Model of `_compute_days_since_reference`: fractional days between the
naive wall clock and the reference date (`total_seconds() / (24*3600)`). -/
def days_since_reference (p : Params) (dt : PyDateTime) : ℚ :=
  (((naive dt).minutes - p.referenceMinutes : ℤ) : ℚ) / 1440

/-- The lag entries written into `features_dict` by
`for i, lag_temp in enumerate(lag_temps, 1)`: keys `ft_temp_lag_{i}h` from
`i = start` upward, values the lag temperatures (possibly missing). -/
def lagEntries : ℕ → List (Option ℚ) → List (String × Option ℚ)
  | _, [] => []
  | i, v :: rest => (lagKey i, v) :: lagEntries (i + 1) rest

/-- Model of `features_dict` as built by `_build_features`: the five base
features followed by the lag features.  (In Python the keys are all distinct,
so a dict and this association list have the same lookups.) -/
def features_dict (p : Params) (dt : PyDateTime) (temp : ℚ) (lagTemps : List (Option ℚ)) :
    List (String × Option ℚ) :=
  [("ft_month", some ((monthOf dt : ℤ) : ℚ)),
   ("ft_day", some ((dayOf dt : ℤ) : ℚ)),
   ("ft_hour", some ((hourOf dt : ℤ) : ℚ)),
   ("ft_days_since_2000", some (days_since_reference p dt)),
   ("ft_temp", some temp)]
  ++ lagEntries 1 lagTemps

/-- Model of `features_dict.get(col, np.nan)`: value of the first entry with
the given key, the missing-value sentinel when no entry has it. -/
def dictGet : List (String × Option ℚ) → String → Option ℚ
  | [], _ => none
  | (k, v) :: rest, c => if k = c then v else dictGet rest c

/-- Model of `_build_features`: the feature row in schema order
(`[features_dict.get(col, np.nan) for col in feature_cols]`) together with the
dict itself. -/
def build_features (p : Params) (dt : PyDateTime) (temp : ℚ) (lagTemps : List (Option ℚ)) :
    List (Option ℚ) × List (String × Option ℚ) :=
  let d := features_dict p dt temp lagTemps
  (p.featureCols.map (fun c => dictGet d c), d)

/-- The trained regressor applied to one feature row
(`model.predict(features)[0]`, already converted by `float`). -/
abbrev Model := List (Option ℚ) → ℚ

/-- One element of the list returned by `predict_24h`. -/
structure ForecastStep where
  time : PyDateTime
  hour : ℤ
  predicted_temperature : ℚ
deriving DecidableEq, Repr

/-- A `ForecastStep` instrumented with the loop state that `predict_24h` fed
to `_build_features` at that iteration: `input_temp` is `current_temp_val`
and `input_lags` is `lag_temps`. -/
structure TraceStep where
  time : PyDateTime
  hour : ℤ
  predicted_temperature : ℚ
  input_temp : ℚ
  input_lags : List (Option ℚ)
deriving DecidableEq, Repr

/-- The loop of `predict_24h`, unrolled from iteration `i` with `fuel`
iterations left and loop state `(current_temp_val, lag_temps) = (c, lags)`:

    future_time = start_time + timedelta(hours=i)
    features, _ = _build_features(future_time, current_temp_val, lag_temps)
    predicted_temp = float(model.predict(features)[0])
    append {time, hour, predicted_temperature}
    lag_temps = [current_temp_val] + lag_temps[:-1]
    current_temp_val = predicted_temp
-/
def rollout (model : Model) (p : Params) (start : PyDateTime) :
    ℕ → ℕ → ℚ → List (Option ℚ) → List TraceStep
  | _, 0, _, _ => []
  | i, fuel + 1, c, lags =>
    let t := addHours start (i : ℤ)
    let predicted := model (build_features p t c lags).1
    ⟨t, hourOf t, predicted, c, lags⟩ ::
      rollout model p start (i + 1) fuel predicted (some c :: lags.dropLast)

/-- Model of `predict_24h`, keeping the per-iteration inputs: 24 iterations
starting from `(current_temp, get_lag_temperatures(start_time))`. -/
def predict_24h_trace (model : Model) (p : Params) (st : TempStore)
    (start : PyDateTime) (currentTemp : ℚ) : List TraceStep :=
  rollout model p start 0 24 currentTemp (get_lag_temperatures st start p.numLags)

/-- Model of `predict_24h`: the returned list of
`{time, hour, predicted_temperature}` records. -/
def predict_24h (model : Model) (p : Params) (st : TempStore)
    (start : PyDateTime) (currentTemp : ℚ) : List ForecastStep :=
  (predict_24h_trace model p st start currentTemp).map
    (fun s => ⟨s.time, s.hour, s.predicted_temperature⟩)

/-- Cached fields of `WeatherPredictor` used by `load_model`: `_model` (the
loaded handle, identified by an opaque id) and `_model_timestamp` (the
freshness token: the artifact's mtime at load, `none` when the probe had
failed). -/
structure CacheState where
  model : Option ℕ
  model_timestamp : Option ℚ
deriving DecidableEq, Repr

instance exceptDecEq {α β : Type} [DecidableEq α] [DecidableEq β] :
    DecidableEq (Except α β) := fun x y =>
  match x, y with
  | .ok a, .ok b =>
    if h : a = b then isTrue (by rw [h]) else isFalse (fun hh => h (Except.ok.inj hh))
  | .error a, .error b =>
    if h : a = b then isTrue (by rw [h]) else isFalse (fun hh => h (Except.error.inj hh))
  | .ok _, .error _ => isFalse (fun hh => Except.noConfusion hh)
  | .error _, .ok _ => isFalse (fun hh => Except.noConfusion hh)

/-- The environment one `load_model` call runs against: the outcome of the
`_get_file_mtime("trained_model")` probe (`none` models every swallowed
exception / missing file, i.e. "unknown") and the outcome that
`context.catalog.load("trained_model")` would have on this call. -/
structure LoadEnv where
  mtime : Option ℚ
  load : Except String ℕ
deriving DecidableEq, Repr

/-- The fresh-load path of `load_model`: `catalog.load`, cache replaced on
success; an exception becomes `RuntimeError(f"Failed to load model: {e}")`. -/
def fresh_load (env : LoadEnv) : Except String (ℕ × CacheState) :=
  match env.load with
  | .ok m => .ok (m, ⟨some m, env.mtime⟩)
  | .error e => .error ("Failed to load model: " ++ e)

/-- Model of `WeatherPredictor.load_model`: reload iff `_model is None or
current_mtime != _model_timestamp`, else return the cached handle unchanged. -/
def load_model (env : LoadEnv) (s : CacheState) : Except String (ℕ × CacheState) :=
  match s.model with
  | none => fresh_load env
  | some m => if env.mtime ≠ s.model_timestamp then fresh_load env else .ok (m, s)

/-- A display-name table entry pair. -/
abbrev DisplayEntry := String × String

/-- Model of `feature_display_names` in `get_shap_contributions`: the five
static entries plus `Temp Lag {i}h` for `i` in `range(1, 10)`. -/
def feature_display_names : List DisplayEntry :=
  [("ft_month", "Month"), ("ft_day", "Day"), ("ft_hour", "Hour"),
   ("ft_days_since_2000", "Days Since 2000"), ("ft_temp", "Current Temp")]
  ++ (List.range 9).map (fun i => (lagKey (i + 1), "Temp Lag " ++ natStr (i + 1) ++ "h"))

/-- Model of `feature_display_names.get(col, col)`. -/
def displayName (c : String) : String :=
  match feature_display_names.find? (fun q => q.1 == c) with
  | some q => q.2
  | none => c

/-- One element of the `contributions` list of `get_shap_contributions`. -/
structure Contribution where
  feature : String
  percentage : ℚ
  shap_value : ℚ
deriving DecidableEq, Repr

/-- The value returned by `get_shap_contributions`. -/
structure AttributionResult where
  contributions : List Contribution
  base_value : ℚ
deriving DecidableEq, Repr

/-- Model of `get_shap_contributions`, taking the explainer's outputs as
inputs: `shapValues` is the row `shap_values[0]` and `expectedValue` is
`explainer.expected_value`.  Percentages are `(abs_shap / total) * 100` when
`total > 0`, else all zeros; the list is stable-sorted descending by
percentage (`contributions.sort(key=..., reverse=True)`). -/
def get_shap_contributions (p : Params) (shapValues : List ℚ) (expectedValue : ℚ) :
    AttributionResult :=
  let absShap := shapValues.map (fun v => |v|)
  let total := absShap.sum
  let percentages :=
    if 0 < total then absShap.map (fun a => a / total * 100)
    else absShap.map (fun _ => (0 : ℚ))
  let contributions := (p.featureCols.zip (percentages.zip shapValues)).map
    (fun x => { feature := displayName x.1, percentage := x.2.1, shap_value := x.2.2 : Contribution })
  { contributions := contributions.mergeSort (fun a b => decide (b.percentage ≤ a.percentage)),
    base_value := expectedValue }

/-- Computations that read or write the Temperature Store, with the store
threaded explicitly: the result together with the store left behind. -/
abbrev StoreM (α : Type) := TempStore → α × TempStore

/-- `load_temperature` as a store computation (reads only). -/
def load_temperatureM (dt : PyDateTime) : StoreM (Option ℚ) :=
  fun st => (load_temperature st dt, st)

/-- `save_temperature` as a store computation (appends a row). -/
def save_temperatureM (dt : PyDateTime) (x : ℚ) : StoreM Unit :=
  fun st => ((), save_temperature st dt x)

/-- The loop of `get_lag_temperatures` with the store threaded through each
`load_temperature` call: lags for hours `i, i+1, ..., i+k-1` back. -/
def get_lags_fromM (dt : PyDateTime) : ℕ → ℕ → StoreM (List (Option ℚ))
  | _, 0 => fun st => ([], st)
  | i, k + 1 => fun st =>
    let r1 := load_temperatureM (subHours dt (i : ℤ)) st
    let r2 := get_lags_fromM dt (i + 1) k r1.2
    (r1.1 :: r2.1, r2.2)

/-- `get_lag_temperatures` as a store computation (`for i in range(1,
num_lags + 1)`). -/
def get_lag_temperaturesM (dt : PyDateTime) (numLags : ℕ) : StoreM (List (Option ℚ)) :=
  get_lags_fromM dt 1 numLags

/-- Model of `predict_24h` with the Temperature Store threaded through every
store operation the method performs: the single `get_lag_temperatures` call,
then the pure 24-step rollout. -/
def predict_24hM (model : Model) (p : Params) (start : PyDateTime) (currentTemp : ℚ) :
    StoreM (List ForecastStep) :=
  fun st =>
    let r := get_lag_temperaturesM start p.numLags st
    ((rollout model p start 0 24 currentTemp r.1).map
       (fun s => ⟨s.time, s.hour, s.predicted_temperature⟩), r.2)

/-! ### Temperature Store lemmas -/

theorem load_temperature_eq_none_iff (st : TempStore) (dt : PyDateTime) :
    load_temperature st dt = none ↔ ∀ r ∈ st, r.key ≠ hourKey (naive dt) := by
  simp [load_temperature]

theorem find?_eq_none_of_load_none (st : TempStore) (dt : PyDateTime)
    (h : load_temperature st dt = none) :
    st.find? (fun r => r.key == hourKey (naive dt)) = none := by
  rw [load_temperature_eq_none_iff] at h
  simp only [List.find?_eq_none, beq_iff_eq]
  exact h

theorem save_temperature_of_absent (st : TempStore) (dt : PyDateTime) (x : ℚ)
    (h : load_temperature st dt = none) :
    save_temperature st dt x = st ++ [⟨hourKey (naive dt), x, naive dt⟩] := by
  rw [load_temperature_eq_none_iff] at h
  have hany : st.any (fun r => r.key == hourKey (naive dt)) = false := by
    simp only [List.any_eq_false, beq_iff_eq]
    exact h
  simp [save_temperature, hany]

theorem save_temperature_of_present (st : TempStore) (dt : PyDateTime) (x : ℚ)
    (r : Observation) (hr : r ∈ st) (hk : r.key = hourKey (naive dt)) :
    save_temperature st dt x = st := by
  have hany : st.any (fun r => r.key == hourKey (naive dt)) = true := by
    simp only [List.any_eq_true, beq_iff_eq]
    exact ⟨r, hr, hk⟩
  simp [save_temperature, hany]

theorem load_temperature_append_single (st : TempStore) (dt : PyDateTime) (r : Observation)
    (h : load_temperature st dt = none) (hk : r.key = hourKey (naive dt)) :
    load_temperature (st ++ [r]) dt = some r.temperature := by
  have hf := find?_eq_none_of_load_none st dt h
  simp [load_temperature, List.find?_append, hf, List.find?_cons, hk]

/-- C4: a first write into a fresh hour lands and is returned by `lookup`;
any further write whose timestamp falls in the same hour (same hour-truncated
key) is a no-op, so the first value is still returned afterwards
(first-write-wins). -/
theorem save_load_first_write_wins (st : TempStore) (t t' : PyDateTime) (x y : ℚ)
    (hfresh : load_temperature st t = none)
    (hsame : hourKey (naive t') = hourKey (naive t)) (hxy : y ≠ x) :
    load_temperature (save_temperature st t x) t = some x ∧
    save_temperature (save_temperature st t x) t' y = save_temperature st t x ∧
    load_temperature (save_temperature (save_temperature st t x) t' y) t = some x := by
  have hsave := save_temperature_of_absent st t x hfresh
  have h1 : load_temperature (save_temperature st t x) t = some x := by
    rw [hsave]
    exact load_temperature_append_single st t _ hfresh rfl
  have h2 : save_temperature (save_temperature st t x) t' y = save_temperature st t x := by
    rw [hsave]
    exact save_temperature_of_present _ t' y ⟨hourKey (naive t), x, naive t⟩
      (by simp) (by simpa using hsame.symm)
  exact ⟨h1, h2, by rw [h2]; exact h1⟩

/-- C4 witness: store `5` at wall clock 01:30, then write `7` at 01:59 of the
same hour; the stored value stays `5`. -/
theorem save_load_first_write_wins_witness :
    load_temperature (save_temperature [] ⟨90, none⟩ 5) ⟨90, none⟩ = some 5 ∧
    save_temperature (save_temperature [] ⟨90, none⟩ 5) ⟨119, none⟩ 7 =
      save_temperature [] ⟨90, none⟩ 5 ∧
    load_temperature (save_temperature (save_temperature [] ⟨90, none⟩ 5) ⟨119, none⟩ 7)
      ⟨90, none⟩ = some 5 :=
  save_load_first_write_wins [] ⟨90, none⟩ ⟨119, none⟩ 5 7 (by decide) (by decide) (by decide)

/-- C10: observations are keyed solely by the wall clock with the timezone
info discarded: writes and reads ignore the offset entirely, a read through
any datetime whose wall-clock hour quadruple coincides returns the stored
value, and a second write through such a datetime — even one denoting a
different instant — is dropped. -/
theorem store_keyed_by_wall_clock (st : TempStore) (m m' : ℤ) (o o' : Option ℤ) (x y : ℚ)
    (hwall : hourKey (naive ⟨m', o'⟩) = hourKey (naive ⟨m, o⟩))
    (hfresh : load_temperature st ⟨m, o⟩ = none) :
    save_temperature st ⟨m, o⟩ x = save_temperature st ⟨m, none⟩ x ∧
    load_temperature st ⟨m, o⟩ = load_temperature st ⟨m, none⟩ ∧
    load_temperature (save_temperature st ⟨m, o⟩ x) ⟨m', o'⟩ = some x ∧
    save_temperature (save_temperature st ⟨m, o⟩ x) ⟨m', o'⟩ y = save_temperature st ⟨m, o⟩ x := by
  have hsave := save_temperature_of_absent st ⟨m, o⟩ x hfresh
  have hfresh' : load_temperature st ⟨m', o'⟩ = none := by
    rw [load_temperature_eq_none_iff] at hfresh ⊢
    rw [hwall]
    exact hfresh
  refine ⟨rfl, rfl, ?_, ?_⟩
  · rw [hsave]
    have := load_temperature_append_single st ⟨m', o'⟩ ⟨hourKey (naive ⟨m, o⟩), x, naive ⟨m, o⟩⟩
      hfresh' hwall.symm
    exact this
  · rw [hsave]
    exact save_temperature_of_present _ ⟨m', o'⟩ y ⟨hourKey (naive ⟨m, o⟩), x, naive ⟨m, o⟩⟩
      (by simp) (by simpa using hwall.symm)

/-- C10 witness: a write at wall clock 01:30 UTC+0 is read back through
01:59 UTC-5 — a different instant with the same wall-clock hour — and the
second write through the latter is dropped. -/
theorem store_keyed_by_wall_clock_witness :
    save_temperature [] ⟨90, some 0⟩ 5 = save_temperature [] ⟨90, none⟩ 5 ∧
    load_temperature [] ⟨90, some 0⟩ = load_temperature [] ⟨90, none⟩ ∧
    load_temperature (save_temperature [] ⟨90, some 0⟩ 5) ⟨119, some (-300)⟩ = some 5 ∧
    save_temperature (save_temperature [] ⟨90, some 0⟩ 5) ⟨119, some (-300)⟩ 7 =
      save_temperature [] ⟨90, some 0⟩ 5 :=
  store_keyed_by_wall_clock [] 90 119 (some 0) (some (-300)) 5 7 (by decide) (by decide)

/-- C6: `get_lag_temperatures` returns exactly `count` entries, entry `i`
being the stored temperature for `dt - (i+1)·1h`; an entry is the absent
value exactly when no row for that hour exists, independently of the other
entries; on an empty store it is `count` absent entries (the function is
total, so it never raises). -/
theorem get_lag_temperatures_spec (st : TempStore) (dt : PyDateTime) (count : ℕ) :
    (get_lag_temperatures st dt count).length = count ∧
    (∀ i : ℕ, i < count →
      (get_lag_temperatures st dt count)[i]? =
        some (load_temperature st (subHours dt ((i : ℤ) + 1)))) ∧
    (∀ i : ℕ, i < count →
      ((get_lag_temperatures st dt count)[i]? = some none ↔
        ∀ r ∈ st, r.key ≠ hourKey (naive (subHours dt ((i : ℤ) + 1))))) ∧
    get_lag_temperatures [] dt count = List.replicate count none := by
  have hget : ∀ i : ℕ, i < count →
      (get_lag_temperatures st dt count)[i]? =
        some (load_temperature st (subHours dt ((i : ℤ) + 1))) := by
    intro i hi
    rw [get_lag_temperatures, List.getElem?_map, List.getElem?_range hi]
    rfl
  refine ⟨?_, hget, ?_, ?_⟩
  · rw [get_lag_temperatures, List.length_map, List.length_range]
  · intro i hi
    rw [hget i hi]
    rw [Option.some_inj]
    exact load_temperature_eq_none_iff st (subHours dt ((i : ℤ) + 1))
  · have hnone : ∀ x : PyDateTime, load_temperature [] x = none := fun _ => rfl
    rw [get_lag_temperatures]
    calc (List.range count).map (fun i : ℕ => load_temperature [] (subHours dt ((i : ℤ) + 1)))
        = (List.range count).map (fun _ => (none : Option ℚ)) := by
          exact List.map_congr_left (fun i _ => hnone _)
      _ = List.replicate count none := by
          rw [List.map_const', List.length_range]

/-- C6 witness: on an empty store, lag entry 1 of 3 is the (absent) stored
value for two hours back. -/
theorem get_lag_temperatures_spec_witness :
    (get_lag_temperatures [] ⟨0, none⟩ 3)[1]? =
      some (load_temperature [] (subHours ⟨0, none⟩ (((1 : ℕ) : ℤ) + 1))) :=
  (get_lag_temperatures_spec [] ⟨0, none⟩ 3).2.1 1 (by decide)

/-! ### Rollout lemmas -/

theorem rollout_length (model : Model) (p : Params) (start : PyDateTime) :
    ∀ (fuel i : ℕ) (c : ℚ) (lags : List (Option ℚ)),
      (rollout model p start i fuel c lags).length = fuel
  | 0, _, _, _ => rfl
  | fuel + 1, i, c, lags => by
    simp only [rollout, List.length_cons]
    rw [rollout_length model p start fuel]

theorem rollout_time_hour (model : Model) (p : Params) (start : PyDateTime) :
    ∀ (fuel i j : ℕ) (c : ℚ) (lags : List (Option ℚ)) (s : TraceStep),
      (rollout model p start i fuel c lags)[j]? = some s →
      s.time = addHours start ((i : ℤ) + (j : ℤ)) ∧
      s.hour = hourOf (addHours start ((i : ℤ) + (j : ℤ)))
  | 0, i, j, c, lags, s => by
    intro h
    simp [rollout] at h
  | fuel + 1, i, j, c, lags, s => by
    intro h
    simp only [rollout] at h
    cases j with
    | zero =>
      rw [List.getElem?_cons_zero, Option.some_inj] at h
      subst h
      constructor <;> simp
    | succ k =>
      rw [List.getElem?_cons_succ] at h
      have hrec := rollout_time_hour model p start fuel (i + 1) k _ _ s h
      have harg : ((i + 1 : ℕ) : ℤ) + (k : ℤ) = (i : ℤ) + ((k + 1 : ℕ) : ℤ) := by
        push_cast
        ring
      rw [harg] at hrec
      exact hrec

theorem rollout_consecutive (model : Model) (p : Params) (start : PyDateTime) :
    ∀ (fuel i j : ℕ) (c : ℚ) (lags : List (Option ℚ)) (s s' : TraceStep),
      (rollout model p start i fuel c lags)[j]? = some s →
      (rollout model p start i fuel c lags)[j + 1]? = some s' →
      s'.input_temp = s.predicted_temperature ∧
      s'.input_lags = some s.input_temp :: s.input_lags.dropLast
  | 0, i, j, c, lags, s, s' => by
    intro h _h'
    simp [rollout] at h
  | fuel + 1, i, j, c, lags, s, s' => by
    intro h h'
    simp only [rollout] at h h'
    cases j with
    | zero =>
      rw [List.getElem?_cons_zero, Option.some_inj] at h
      rw [List.getElem?_cons_succ] at h'
      subst h
      cases fuel with
      | zero => simp [rollout] at h'
      | succ f =>
        simp only [rollout] at h'
        rw [List.getElem?_cons_zero, Option.some_inj] at h'
        subst h'
        exact ⟨rfl, rfl⟩
    | succ k =>
      rw [List.getElem?_cons_succ] at h h'
      exact rollout_consecutive model p start fuel (i + 1) k _ _ s s' h h'

theorem rollout_lags_length (model : Model) (p : Params) (start : PyDateTime) :
    ∀ (fuel i j : ℕ) (c : ℚ) (lags : List (Option ℚ)) (s : TraceStep),
      (rollout model p start i fuel c lags)[j]? = some s →
      0 < lags.length → s.input_lags.length = lags.length
  | 0, i, j, c, lags, s => by
    intro h _hpos
    simp [rollout] at h
  | fuel + 1, i, j, c, lags, s => by
    intro h hpos
    simp only [rollout] at h
    cases j with
    | zero =>
      rw [List.getElem?_cons_zero, Option.some_inj] at h
      subst h
      rfl
    | succ k =>
      rw [List.getElem?_cons_succ] at h
      have hrec := rollout_lags_length model p start fuel (i + 1) k _ _ s h (by simp)
      rw [hrec]
      simp only [List.length_cons, List.length_dropLast]
      omega

/-- C5: `predict_24h` returns exactly 24 steps; step `i` carries the time
`start + i hours` and that time's hour-of-day field. -/
theorem predict_24h_spec (model : Model) (p : Params) (st : TempStore)
    (start : PyDateTime) (c : ℚ) :
    (predict_24h model p st start c).length = 24 ∧
    ∀ (i : ℕ) (s : ForecastStep), (predict_24h model p st start c)[i]? = some s →
      s.time = addHours start (i : ℤ) ∧ s.hour = hourOf (addHours start (i : ℤ)) := by
  constructor
  · rw [predict_24h, List.length_map, predict_24h_trace, rollout_length]
  · intro i s h
    rw [predict_24h, List.getElem?_map] at h
    cases htr : (predict_24h_trace model p st start c)[i]? with
    | none => rw [htr] at h; simp at h
    | some ts =>
      rw [htr] at h
      simp only [Option.map_some', Option.some_inj] at h
      have hth := rollout_time_hour model p start 24 0 i c _ ts htr
      rw [Nat.cast_zero, zero_add] at hth
      rw [← h]
      exact hth

/-- C5 witness: with a constant-zero model, empty store and no lags, step 3
of the forecast starting at the epoch carries time `epoch + 3h` and hour 3. -/
theorem predict_24h_spec_witness :
    (⟨⟨180, none⟩, 3, 0⟩ : ForecastStep).time = addHours ⟨0, none⟩ ((3 : ℕ) : ℤ) ∧
    (⟨⟨180, none⟩, 3, 0⟩ : ForecastStep).hour = hourOf (addHours ⟨0, none⟩ ((3 : ℕ) : ℤ)) :=
  (predict_24h_spec (fun _ => 0) ⟨0, 0, []⟩ [] ⟨0, none⟩ 1).2 3 ⟨⟨180, none⟩, 3, 0⟩ (by decide)

/-! ### Frame property of the forecast engine -/

theorem get_lags_fromM_spec (dt : PyDateTime) :
    ∀ (k i : ℕ) (st : TempStore),
      get_lags_fromM dt i k st =
        ((List.range k).map (fun j : ℕ => load_temperature st (subHours dt ((i : ℤ) + j))), st)
  | 0, i, st => by simp [get_lags_fromM]
  | k + 1, i, st => by
    simp only [get_lags_fromM, load_temperatureM]
    rw [get_lags_fromM_spec dt k (i + 1) st]
    rw [List.range_succ_eq_map]
    simp only [List.map_cons, List.map_map, Function.comp]
    refine Prod.ext ?_ rfl
    simp only [Nat.cast_zero, add_zero]
    refine congrArg₂ List.cons rfl ?_
    refine List.map_congr_left (fun j _ => ?_)
    have : ((i + 1 : ℕ) : ℤ) + (j : ℤ) = (i : ℤ) + ((j + 1 : ℕ) : ℤ) := by
      push_cast
      ring
    rw [this]
    rfl

/-- C9: running `predict_24h` leaves the Temperature Store exactly as it was —
its only store access is the read-only `get_lag_temperatures` call, so no
synthetic prediction is ever recorded — and the steps it returns are those of
the pure rollout over that unchanged store. -/
theorem predict_24h_frame (model : Model) (p : Params) (start : PyDateTime) (c : ℚ)
    (st : TempStore) :
    (predict_24hM model p start c st).2 = st ∧
    (predict_24hM model p start c st).1 = predict_24h model p st start c := by
  have hlags : get_lag_temperaturesM start p.numLags st =
      (get_lag_temperatures st start p.numLags, st) := by
    rw [get_lag_temperaturesM, get_lags_fromM_spec start p.numLags 1 st]
    refine Prod.ext ?_ rfl
    rw [get_lag_temperatures]
    refine List.map_congr_left (fun j _ => ?_)
    rw [add_comm ((1 : ℕ) : ℤ) (j : ℤ)]
    norm_num
  constructor
  · rw [predict_24hM, hlags]
  · rw [predict_24hM, hlags, predict_24h, predict_24h_trace]

/-! ### The end-to-end example configuration: a 3-lag schema with
observations 50.0, 49.0, 48.5 stored for the three hours before `exStart`. -/

def exCols : List String :=
  ["ft_month", "ft_day", "ft_hour", "ft_days_since_2000", "ft_temp",
   "ft_temp_lag_1h", "ft_temp_lag_2h", "ft_temp_lag_3h"]

def exParams : Params := ⟨3, 0, exCols⟩

def exStart : PyDateTime := ⟨600000, none⟩

def exStore : TempStore :=
  save_temperature
    (save_temperature
      (save_temperature [] (subHours exStart 1) 50)
      (subHours exStart 2) 49)
    (subHours exStart 3) 48.5

/-- The step 0 produced by the constant-7 model on the example store. -/
def exS0 : TraceStep := ⟨⟨600000, none⟩, 16, 7, 51, [some 50, some 49, some 48.5]⟩

/-- The step 1 produced by the constant-7 model on the example store. -/
def exS1 : TraceStep := ⟨⟨600060, none⟩, 17, 7, 7, [some 51, some 50, some 49]⟩

theorem get_lag_temperatures_length (st : TempStore) (dt : PyDateTime) (n : ℕ) :
    (get_lag_temperatures st dt n).length = n := by
  rw [get_lag_temperatures, List.length_map, List.length_range]

/-- C2: each step's current-temperature input is exactly the previous step's
predicted temperature (the model's own output, unrounded); and on the
concrete 3-lag example, step 0 is built from `temp = 51` with lags
`[50, 49, 48.5]` and step 1 from `temp = ŷ_0` with lags `[51, 50, 49]`. -/
theorem predict_24h_autoregressive (model : Model) (p : Params) (st : TempStore)
    (start : PyDateTime) (c : ℚ) :
    (∀ (j : ℕ) (s s' : TraceStep), j + 1 < 24 →
      (predict_24h_trace model p st start c)[j]? = some s →
      (predict_24h_trace model p st start c)[j + 1]? = some s' →
      s'.input_temp = s.predicted_temperature) ∧
    ((predict_24h_trace model exParams exStore exStart 51)[0]?.map TraceStep.input_temp =
      some 51) ∧
    ((predict_24h_trace model exParams exStore exStart 51)[0]?.map TraceStep.input_lags =
      some [some 50, some 49, some 48.5]) ∧
    ((predict_24h_trace model exParams exStore exStart 51)[1]?.map TraceStep.input_temp =
      (predict_24h_trace model exParams exStore exStart 51)[0]?.map
        TraceStep.predicted_temperature) ∧
    ((predict_24h_trace model exParams exStore exStart 51)[1]?.map TraceStep.input_lags =
      some [some 51, some 50, some 49]) := by
  refine ⟨?_, rfl, rfl, rfl, rfl⟩
  intro j s s' _hj h h'
  exact (rollout_consecutive model p start 24 0 j c _ s s' h h').1

/-- C2 witness: with the constant-7 model on the example store, step 1's
current-temperature input equals step 0's prediction. -/
theorem predict_24h_autoregressive_witness :
    exS1.input_temp = exS0.predicted_temperature :=
  (predict_24h_autoregressive (fun _ => 7) exParams exStore exStart 51).1 0 exS0 exS1
    (by decide) (by rfl) (by rfl)

/-- C1 counterexample: in the concrete 3-lag example with the constant-zero
model, step 1's most recent lag feature is the observed `51`, whereas step 0's
prediction `ŷ_0` is `0` — the most recent lag of step i is not `ŷ_{i-1}`. -/
theorem predict_24h_lag_shift_counterexample :
    ((predict_24h_trace (fun _ => 0) exParams exStore exStart 51)[1]?.bind
      (fun s => s.input_lags.head?)) = some (some 51) ∧
    ((predict_24h_trace (fun _ => 0) exParams exStore exStart 51)[0]?.map
      TraceStep.predicted_temperature) = some 0 ∧
    some (some (51 : ℚ)) ≠ some (some (0 : ℚ)) := by
  refine ⟨by decide, by decide, by decide⟩

/-- C1 (amended): for every step i in 1..23, the lag window of step i is the
window of step i-1 shifted by one position: its most recent lag equals step
i-1's current-temperature input (the observed temperature for i = 1, and
`ŷ_{i-2}` for i ≥ 2 — not `ŷ_{i-1}`), the oldest lag of step i-1 is dropped,
and the window length stays equal to the configured lag depth. -/
theorem predict_24h_lag_shift (model : Model) (p : Params) (st : TempStore)
    (start : PyDateTime) (c : ℚ) (hpos : 0 < p.numLags) :
    ∀ (j : ℕ) (s s' : TraceStep), j + 1 < 24 →
      (predict_24h_trace model p st start c)[j]? = some s →
      (predict_24h_trace model p st start c)[j + 1]? = some s' →
      s'.input_lags = some s.input_temp :: s.input_lags.dropLast ∧
      s'.input_lags.head? = some (some s.input_temp) ∧
      s'.input_lags.length = p.numLags := by
  intro j s s' _hj h h'
  have hcons := rollout_consecutive model p start 24 0 j c _ s s' h h'
  have hpos' : 0 < (get_lag_temperatures st start p.numLags).length := by
    rw [get_lag_temperatures_length]
    exact hpos
  have hlen := rollout_lags_length model p start 24 0 (j + 1) c _ s' h' hpos'
  refine ⟨hcons.2, ?_, ?_⟩
  · rw [hcons.2]
    rfl
  · rw [hlen, get_lag_temperatures_length]

/-- C1 witness: with the constant-7 model on the example store, step 1's lag
window is step 0's window shifted by one, headed by step 0's input `51`, of
length 3. -/
theorem predict_24h_lag_shift_witness :
    exS1.input_lags = some exS0.input_temp :: exS0.input_lags.dropLast ∧
    exS1.input_lags.head? = some (some exS0.input_temp) ∧
    exS1.input_lags.length = exParams.numLags :=
  predict_24h_lag_shift (fun _ => 7) exParams exStore exStart 51 (by decide) 0 exS0 exS1
    (by decide) (by rfl) (by rfl)

/-! ### Model Freshness Cache -/

theorem load_model_ok_state (env : LoadEnv) (s s' : CacheState) (h : ℕ)
    (hok : load_model env s = .ok (h, s')) :
    s'.model = some h ∧ s'.model_timestamp = env.mtime := by
  obtain ⟨smodel, sts⟩ := s
  cases smodel with
  | none =>
    cases hl : env.load with
    | ok m =>
      simp only [load_model, fresh_load, hl] at hok
      obtain ⟨hm, hs'⟩ := Prod.mk.inj (Except.ok.inj hok)
      subst hm
      rw [← hs']
      exact ⟨rfl, rfl⟩
    | error e =>
      simp only [load_model, fresh_load, hl] at hok
      exact absurd hok (fun hh => Except.noConfusion hh)
  | some m =>
    by_cases hc : env.mtime ≠ sts
    · cases hl : env.load with
      | ok m' =>
        simp only [load_model, fresh_load, hl] at hok
        rw [if_pos hc] at hok
        obtain ⟨hm, hs'⟩ := Prod.mk.inj (Except.ok.inj hok)
        subst hm
        rw [← hs']
        exact ⟨rfl, rfl⟩
      | error e =>
        simp only [load_model, fresh_load, hl] at hok
        rw [if_pos hc] at hok
        exact absurd hok (fun hh => Except.noConfusion hh)
    · simp only [load_model] at hok
      rw [if_neg hc] at hok
      obtain ⟨hm, hs'⟩ := Prod.mk.inj (Except.ok.inj hok)
      push_neg at hc
      subst hm
      rw [← hs']
      exact ⟨rfl, hc.symm⟩

/-- C3 counterexample: with a cached handle `1` whose freshness token is the
known mtime `5`, a call whose mtime probe fails (yields "unknown") does not
use the handle it already has: it reloads — returning a different handle `2`
when the load succeeds, and raising a load error when the load fails, even
though a cached handle exists. -/
theorem load_model_probe_unknown_counterexample :
    load_model ⟨none, Except.ok 2⟩ ⟨some 1, some 5⟩ = Except.ok (2, ⟨some 2, none⟩) ∧
    (2 : ℕ) ≠ 1 ∧
    load_model ⟨none, Except.error "boom"⟩ ⟨some 1, some 5⟩ =
      Except.error "Failed to load model: boom" :=
  ⟨rfl, by decide, rfl⟩

/-- C3 (amended): if the observed modification time is unchanged between two
consecutive calls, the second returns the identical cached handle and state,
without reloading (even a failing loader is never consulted); if it differs,
the second call is exactly a fresh load replacing the cache.  When the probe
fails ("unknown" mtime), the cached handle is used only if the stored
freshness token is itself unknown; if a known token is cached, the call
reloads (and can therefore fail even though a handle exists). -/
theorem load_model_cache (env1 env2 : LoadEnv) (s0 s1 : CacheState) (h1 : ℕ) :
    (load_model env1 s0 = .ok (h1, s1) → env2.mtime = env1.mtime →
      load_model env2 s1 = .ok (h1, s1)) ∧
    (load_model env1 s0 = .ok (h1, s1) → env2.mtime ≠ env1.mtime →
      load_model env2 s1 = fresh_load env2) ∧
    (env2.mtime = none → s1.model = some h1 → s1.model_timestamp = none →
      load_model env2 s1 = .ok (h1, s1)) ∧
    (env2.mtime = none → s1.model_timestamp ≠ none →
      load_model env2 s1 = fresh_load env2) := by
  refine ⟨?_, ?_, ?_, ?_⟩
  · intro hok heq
    obtain ⟨hm, ht⟩ := load_model_ok_state env1 s0 s1 h1 hok
    obtain ⟨s1m, s1t⟩ := s1
    dsimp only at hm ht
    subst hm
    subst ht
    simp only [load_model]
    rw [if_neg (fun hh => hh heq)]
  · intro hok hne
    obtain ⟨hm, ht⟩ := load_model_ok_state env1 s0 s1 h1 hok
    obtain ⟨s1m, s1t⟩ := s1
    dsimp only at hm ht
    subst hm
    subst ht
    simp only [load_model]
    rw [if_pos hne]
  · intro hu hm ht
    obtain ⟨s1m, s1t⟩ := s1
    dsimp only at hm ht
    subst hm
    subst ht
    simp only [load_model]
    rw [if_neg (fun hh => hh hu)]
  · intro hu ht
    obtain ⟨s1m, s1t⟩ := s1
    dsimp only at ht
    cases s1m with
    | none => simp only [load_model]
    | some m =>
      simp only [load_model]
      rw [if_pos (by rw [hu]; exact fun hh => ht hh.symm)]

/-- C3 witness: after loading handle `1` at mtime `5`, a second call seeing
the same mtime returns the identical cached handle and state — its own loader
(which would fail) is never consulted. -/
theorem load_model_cache_witness :
    load_model ⟨some 5, Except.error "x"⟩ ⟨some 1, some 5⟩ =
      Except.ok (1, ⟨some 1, some 5⟩) :=
  (load_model_cache ⟨some 5, Except.ok 1⟩ ⟨some 5, Except.error "x"⟩ ⟨none, none⟩
    ⟨some 1, some 5⟩ 1).1 (by rfl) (by rfl)

/-! ### Decimal feature-key lemmas -/

theorem digitsAux_eq_digits : ∀ (fuel n : ℕ), n ≤ fuel →
    digitsAux fuel n = (Nat.digits 10 n).reverse
  | 0, n, hn => by
    have : n = 0 := Nat.le_zero.mp hn
    subst this
    rw [Nat.digits_zero]
    rfl
  | fuel + 1, n, hn => by
    by_cases h0 : n = 0
    · subst h0
      rw [Nat.digits_zero]
      rfl
    · have hpos : 0 < n := Nat.pos_of_ne_zero h0
      have hdiv : n / 10 ≤ fuel := by
        have : n / 10 < n := Nat.div_lt_self hpos (by norm_num)
        omega
      rw [digitsAux, if_neg h0, digitsAux_eq_digits fuel (n / 10) hdiv,
        Nat.digits_def' (by norm_num : (1 : ℕ) < 10) hpos, List.reverse_cons]

theorem digitsAux_lt_ten (n : ℕ) (d : ℕ) (hd : d ∈ digitsAux n n) : d < 10 := by
  rw [digitsAux_eq_digits n n le_rfl, List.mem_reverse] at hd
  exact Nat.digits_lt_base (by norm_num) hd

theorem digitChar_inj_lt : ∀ a < 10, ∀ b < 10, Nat.digitChar a = Nat.digitChar b → a = b := by
  decide

theorem map_digitChar_inj : ∀ (l1 l2 : List ℕ), (∀ d ∈ l1, d < 10) → (∀ d ∈ l2, d < 10) →
    l1.map Nat.digitChar = l2.map Nat.digitChar → l1 = l2
  | [], [], _, _, _ => rfl
  | [], _ :: _, _, _, h => by simp at h
  | _ :: _, [], _, _, h => by simp at h
  | a :: l1, b :: l2, h1, h2, h => by
    rw [List.map_cons, List.map_cons] at h
    have hab := List.cons.inj h
    rw [digitChar_inj_lt a (h1 a (by simp)) b (h2 b (by simp)) hab.1,
      map_digitChar_inj l1 l2 (fun d hd => h1 d (by simp [hd])) (fun d hd => h2 d (by simp [hd]))
        hab.2]

theorem natStr_inj (m n : ℕ) (h : natStr m = natStr n) : m = n := by
  rw [natStr, natStr] at h
  have hdata : (digitsAux m m).map Nat.digitChar = (digitsAux n n).map Nat.digitChar :=
    congrArg String.data h
  have hdig := map_digitChar_inj _ _ (digitsAux_lt_ten m) (digitsAux_lt_ten n) hdata
  rw [digitsAux_eq_digits m m le_rfl, digitsAux_eq_digits n n le_rfl] at hdig
  have := List.reverse_injective hdig
  calc m = Nat.ofDigits 10 (Nat.digits 10 m) := (Nat.ofDigits_digits 10 m).symm
    _ = Nat.ofDigits 10 (Nat.digits 10 n) := by rw [this]
    _ = n := Nat.ofDigits_digits 10 n

theorem natStr_length_pos (n : ℕ) (hn : 0 < n) : 0 < (natStr n).length := by
  rw [natStr]
  show 0 < ((digitsAux n n).map Nat.digitChar).length
  rw [List.length_map, digitsAux_eq_digits n n le_rfl, List.length_reverse]
  have hne : Nat.digits 10 n ≠ [] := Nat.digits_ne_nil_iff_ne_zero.mpr (Nat.pos_iff_ne_zero.mp hn)
  exact List.length_pos.mpr hne

theorem lagKey_inj (i j : ℕ) (h : lagKey i = lagKey j) : i = j := by
  rw [lagKey, lagKey] at h
  have hdata := congrArg String.data h
  simp only [String.data_append] at hdata
  rw [List.append_assoc, List.append_assoc] at hdata
  have h1 := List.append_cancel_left hdata
  have h2 := List.append_cancel_right h1
  exact natStr_inj i j (String.ext h2)

theorem lagKey_length (i : ℕ) : (lagKey i).length = 13 + (natStr i).length := by
  rw [lagKey, String.length_append, String.length_append]
  have h1 : ("ft_temp_lag_" : String).length = 12 := rfl
  have h2 : ("h" : String).length = 1 := rfl
  rw [h1, h2]
  omega

theorem lagKey_ne_ft_month (i : ℕ) (hi : 0 < i) : lagKey i ≠ "ft_month" := by
  intro h
  have := congrArg String.length h
  rw [lagKey_length] at this
  have h8 : ("ft_month" : String).length = 8 := rfl
  have hp := natStr_length_pos i hi
  omega

theorem lagKey_ne_ft_day (i : ℕ) (hi : 0 < i) : lagKey i ≠ "ft_day" := by
  intro h
  have := congrArg String.length h
  rw [lagKey_length] at this
  have h6 : ("ft_day" : String).length = 6 := rfl
  have hp := natStr_length_pos i hi
  omega

theorem lagKey_ne_ft_hour (i : ℕ) (hi : 0 < i) : lagKey i ≠ "ft_hour" := by
  intro h
  have := congrArg String.length h
  rw [lagKey_length] at this
  have h7 : ("ft_hour" : String).length = 7 := rfl
  have hp := natStr_length_pos i hi
  omega

theorem lagKey_ne_ft_temp (i : ℕ) (hi : 0 < i) : lagKey i ≠ "ft_temp" := by
  intro h
  have := congrArg String.length h
  rw [lagKey_length] at this
  have h7 : ("ft_temp" : String).length = 7 := rfl
  have hp := natStr_length_pos i hi
  omega

theorem lagKey_ne_ft_days (i : ℕ) : lagKey i ≠ "ft_days_since_2000" := by
  intro h
  have hdata := congrArg String.data h
  rw [lagKey] at hdata
  simp only [String.data_append] at hdata
  have h3 : (("ft_temp_lag_" : String).data ++ ((natStr i).data ++ ("h" : String).data))[3]? =
      some 't' := by
    rw [List.getElem?_append_left (by decide : 3 < ("ft_temp_lag_" : String).data.length)]
    rfl
  rw [List.append_assoc] at hdata
  rw [hdata] at h3
  exact absurd h3 (by decide)

theorem dictGet_lagEntries : ∀ (lags : List (Option ℚ)) (n i : ℕ) (v : Option ℚ), 0 < n →
    lags[i]? = some v → dictGet (lagEntries n lags) (lagKey (n + i)) = v
  | [], _, i, v, _, h => by simp at h
  | w :: rest, n, 0, v, _, h => by
    rw [List.getElem?_cons_zero, Option.some_inj] at h
    subst h
    rw [Nat.add_zero, lagEntries]
    simp only [dictGet]
    rw [if_true]
  | w :: rest, n, i + 1, v, hn, h => by
    rw [List.getElem?_cons_succ] at h
    rw [lagEntries]
    have hne : lagKey n ≠ lagKey (n + (i + 1)) := fun hk => by
      have := lagKey_inj _ _ hk
      omega
    simp only [dictGet]
    rw [if_neg hne]
    have hrec := dictGet_lagEntries rest (n + 1) i v (by omega) h
    rw [show n + 1 + i = n + (i + 1) from by omega] at hrec
    exact hrec

theorem dictGet_features_dict_lag (p : Params) (dt : PyDateTime) (temp : ℚ)
    (lagTemps : List (Option ℚ)) (i : ℕ) (v : Option ℚ) (h : lagTemps[i]? = some v) :
    dictGet (features_dict p dt temp lagTemps) (lagKey (i + 1)) = v := by
  rw [features_dict]
  simp only [List.cons_append, List.nil_append, dictGet]
  rw [if_neg (fun hh => lagKey_ne_ft_month (i + 1) (by omega) hh.symm),
    if_neg (fun hh => lagKey_ne_ft_day (i + 1) (by omega) hh.symm),
    if_neg (fun hh => lagKey_ne_ft_hour (i + 1) (by omega) hh.symm),
    if_neg (fun hh => lagKey_ne_ft_days (i + 1) hh.symm),
    if_neg (fun hh => lagKey_ne_ft_temp (i + 1) (by omega) hh.symm)]
  have hrec := dictGet_lagEntries lagTemps 1 i v (by omega) h
  rw [show 1 + i = i + 1 from by omega] at hrec
  exact hrec

/-- C7: the feature row of `_build_features` is exactly the shared schema
list mapped through the feature dict — the schema alone dictates the output
order and length; the base features carry the calendar fields, the
time-since-reference value and the current temperature; `lag_temperatures[i]`
is carried, by position, to the `ft_temp_lag_{i+1}h` feature, and an absent
lag temperature stays the missing-value sentinel (never a zero). -/
theorem build_features_spec (p : Params) (dt : PyDateTime) (temp : ℚ)
    (lagTemps : List (Option ℚ)) :
    (build_features p dt temp lagTemps).1.length = p.featureCols.length ∧
    (∀ (j : ℕ) (c : String), p.featureCols[j]? = some c →
      (build_features p dt temp lagTemps).1[j]? =
        some (dictGet (features_dict p dt temp lagTemps) c)) ∧
    (∀ (j i : ℕ) (v : Option ℚ), p.featureCols[j]? = some (lagKey (i + 1)) →
      lagTemps[i]? = some v → (build_features p dt temp lagTemps).1[j]? = some v) ∧
    dictGet (features_dict p dt temp lagTemps) "ft_temp" = some temp ∧
    dictGet (features_dict p dt temp lagTemps) "ft_month" = some ((monthOf dt : ℤ) : ℚ) ∧
    dictGet (features_dict p dt temp lagTemps) "ft_day" = some ((dayOf dt : ℤ) : ℚ) ∧
    dictGet (features_dict p dt temp lagTemps) "ft_hour" = some ((hourOf dt : ℤ) : ℚ) ∧
    dictGet (features_dict p dt temp lagTemps) "ft_days_since_2000" =
      some (days_since_reference p dt) ∧
    (∀ (i : ℕ) (v : Option ℚ), lagTemps[i]? = some v →
      dictGet (features_dict p dt temp lagTemps) (lagKey (i + 1)) = v) := by
  have hmap : ∀ (j : ℕ) (c : String), p.featureCols[j]? = some c →
      (build_features p dt temp lagTemps).1[j]? =
        some (dictGet (features_dict p dt temp lagTemps) c) := by
    intro j c hc
    show (p.featureCols.map (fun c => dictGet (features_dict p dt temp lagTemps) c))[j]? = _
    rw [List.getElem?_map, hc]
    rfl
  refine ⟨?_, hmap, ?_, rfl, rfl, rfl, rfl, rfl,
    dictGet_features_dict_lag p dt temp lagTemps⟩
  · show (p.featureCols.map (fun c => dictGet (features_dict p dt temp lagTemps) c)).length = _
    rw [List.length_map]
  · intro j i v hc hv
    rw [hmap j _ hc, dictGet_features_dict_lag p dt temp lagTemps i v hv]

/-- C7 witness: with schema `[ft_temp, ft_temp_lag_1h]` and a single absent
lag, position 1 of the feature row is the missing sentinel, not zero. -/
theorem build_features_spec_witness :
    (build_features ⟨1, 0, ["ft_temp", "ft_temp_lag_1h"]⟩ ⟨0, none⟩ 51 [none]).1[1]? =
      some none :=
  (build_features_spec ⟨1, 0, ["ft_temp", "ft_temp_lag_1h"]⟩ ⟨0, none⟩ 51 [none]).2.2.1 1 0 none
    (by decide) (by rfl)

/-! ### Explanation Engine lemmas -/

theorem shap_zip_map_form (g : ℚ → ℚ) :
    ∀ (cols : List String) (shap : List ℚ),
      (cols.zip ((shap.map g).zip shap)).map
        (fun x => (⟨displayName x.1, x.2.1, x.2.2⟩ : Contribution)) =
      (cols.zip shap).map
        (fun x => (⟨displayName x.1, g x.2, x.2⟩ : Contribution))
  | [], _ => rfl
  | _ :: _, [] => rfl
  | c :: cols, v :: shap => by
    simp only [List.map_cons, List.zip_cons_cons]
    rw [shap_zip_map_form g cols shap]

theorem sum_map_zip_snd (q : ℚ → ℚ) (cols : List String) (shap : List ℚ)
    (hl : shap.length ≤ cols.length) :
    ((cols.zip shap).map (fun x => q x.2)).sum = (shap.map q).sum := by
  have h : (cols.zip shap).map (fun x => q x.2) = ((cols.zip shap).map Prod.snd).map q := by
    rw [List.map_map]
    rfl
  rw [h, List.map_snd_zip cols shap hl]

theorem shap_contributions_unsorted (p : Params) (shap : List ℚ) :
    (p.featureCols.zip
      ((if 0 < (shap.map (fun v => |v|)).sum
        then (shap.map (fun v => |v|)).map (fun a => a / (shap.map (fun v => |v|)).sum * 100)
        else (shap.map (fun v => |v|)).map (fun _ => (0 : ℚ))).zip shap)).map
      (fun x => (⟨displayName x.1, x.2.1, x.2.2⟩ : Contribution)) =
    (p.featureCols.zip shap).map
      (fun x => (⟨displayName x.1,
        if 0 < (shap.map (fun v => |v|)).sum
          then |x.2| / (shap.map (fun v => |v|)).sum * 100 else 0,
        x.2⟩ : Contribution)) := by
  by_cases h : 0 < (shap.map (fun v => |v|)).sum
  · rw [if_pos h, List.map_map]
    rw [shap_zip_map_form
      ((fun a => a / (shap.map (fun v => |v|)).sum * 100) ∘ (fun v => |v|)) p.featureCols shap]
    refine List.map_congr_left (fun x _ => ?_)
    refine congrArg (fun q => (⟨displayName x.1, q, x.2⟩ : Contribution)) ?_
    rw [if_pos h]
    rfl
  · rw [if_neg h, List.map_map]
    rw [shap_zip_map_form ((fun _ => (0 : ℚ)) ∘ (fun v => |v|)) p.featureCols shap]
    refine List.map_congr_left (fun x _ => ?_)
    refine congrArg (fun q => (⟨displayName x.1, q, x.2⟩ : Contribution)) ?_
    rw [if_neg h]
    rfl

/-- C8: every contribution's percentage is `|shap| / Σ|shap| * 100` (all exactly
zero when the total absolute contribution is not positive), hence non-negative;
the percentages sum to exactly 100 when the total is positive and to 0
otherwise; the list is sorted descending by percentage; the base value is the
explainer's expected value. -/
theorem get_shap_contributions_spec (p : Params) (shapValues : List ℚ) (ev : ℚ)
    (hlen : p.featureCols.length = shapValues.length) :
    (∀ c ∈ (get_shap_contributions p shapValues ev).contributions,
      c.percentage = (if 0 < (shapValues.map (fun v => |v|)).sum
        then |c.shap_value| / (shapValues.map (fun v => |v|)).sum * 100 else 0) ∧
      0 ≤ c.percentage) ∧
    ((get_shap_contributions p shapValues ev).contributions.map
      (fun c => c.percentage)).sum =
      (if 0 < (shapValues.map (fun v => |v|)).sum then 100 else 0) ∧
    (get_shap_contributions p shapValues ev).contributions.Pairwise
      (fun a b => b.percentage ≤ a.percentage) ∧
    (get_shap_contributions p shapValues ev).base_value = ev := by
  have hbody : (get_shap_contributions p shapValues ev).contributions =
      ((p.featureCols.zip shapValues).map
        (fun x => (⟨displayName x.1,
          if 0 < (shapValues.map (fun v => |v|)).sum
            then |x.2| / (shapValues.map (fun v => |v|)).sum * 100 else 0,
          x.2⟩ : Contribution))).mergeSort
        (fun a b => decide (b.percentage ≤ a.percentage)) := by
    simp only [get_shap_contributions]
    rw [shap_contributions_unsorted p shapValues]
  have hperm := List.mergeSort_perm
    ((p.featureCols.zip shapValues).map
      (fun x => (⟨displayName x.1,
        if 0 < (shapValues.map (fun v => |v|)).sum
          then |x.2| / (shapValues.map (fun v => |v|)).sum * 100 else 0,
        x.2⟩ : Contribution)))
    (fun a b => decide (b.percentage ≤ a.percentage))
  refine ⟨?_, ?_, ?_, rfl⟩
  · intro c hc
    rw [hbody] at hc
    have hmem := hperm.mem_iff.mp hc
    obtain ⟨x, _hx, hxc⟩ := List.mem_map.mp hmem
    constructor
    · rw [← hxc]
    · rw [← hxc]
      by_cases h : 0 < (shapValues.map (fun v => |v|)).sum
      · simp only [if_pos h]
        positivity
      · simp only [if_neg h]
        exact le_rfl
  · rw [hbody]
    have hsum := (hperm.map (fun c => c.percentage)).sum_eq
    rw [hsum, List.map_map]
    have hle : shapValues.length ≤ p.featureCols.length := le_of_eq hlen.symm
    calc (((p.featureCols.zip shapValues)).map
          ((fun c : Contribution => c.percentage) ∘
            (fun x : String × ℚ => (⟨displayName x.1,
              if 0 < (shapValues.map (fun v => |v|)).sum
                then |x.2| / (shapValues.map (fun v => |v|)).sum * 100 else 0,
              x.2⟩ : Contribution)))).sum
        = (shapValues.map (fun v => if 0 < (shapValues.map (fun w => |w|)).sum
            then |v| / (shapValues.map (fun w => |w|)).sum * 100 else 0)).sum :=
          sum_map_zip_snd (fun v => if 0 < (shapValues.map (fun w => |w|)).sum
            then |v| / (shapValues.map (fun w => |w|)).sum * 100 else 0)
            p.featureCols shapValues hle
      _ = (if 0 < (shapValues.map (fun v => |v|)).sum then 100 else 0) := by
          by_cases h : 0 < (shapValues.map (fun v => |v|)).sum
          · rw [if_pos h]
            have hcongr : shapValues.map (fun v =>
                if 0 < (shapValues.map (fun w => |w|)).sum
                  then |v| / (shapValues.map (fun w => |w|)).sum * 100 else 0) =
                shapValues.map (fun v =>
                  |v| * (100 / (shapValues.map (fun w => |w|)).sum)) :=
              List.map_congr_left (fun v _ => by rw [if_pos h]; ring)
            rw [hcongr]
            have hmm : shapValues.map (fun v =>
                |v| * (100 / (shapValues.map (fun w => |w|)).sum)) =
                shapValues.map (fun v => (fun w => |w|) v *
                  (100 / (shapValues.map (fun w => |w|)).sum)) := rfl
            rw [hmm, List.sum_map_mul_right]
            have hne : (shapValues.map (fun w => |w|)).sum ≠ 0 := ne_of_gt h
            field_simp
          · rw [if_neg h]
            have hcongr : shapValues.map (fun v =>
                if 0 < (shapValues.map (fun w => |w|)).sum
                  then |v| / (shapValues.map (fun w => |w|)).sum * 100 else 0) =
                shapValues.map (fun _ => (0 : ℚ)) :=
              List.map_congr_left (fun v _ => by rw [if_neg h])
            rw [hcongr, List.map_const']
            simp
  · rw [hbody]
    have htrans : ∀ a b c : Contribution,
        decide (b.percentage ≤ a.percentage) → decide (c.percentage ≤ b.percentage) →
        decide (c.percentage ≤ a.percentage) := by
      intro a b c h1 h2
      simp only [decide_eq_true_eq] at h1 h2 ⊢
      exact le_trans h2 h1
    have htotal : ∀ a b : Contribution,
        decide (b.percentage ≤ a.percentage) || decide (a.percentage ≤ b.percentage) := by
      intro a b
      simp only [Bool.or_eq_true, decide_eq_true_eq]
      exact le_total _ _
    have hs := List.sorted_mergeSort htrans htotal
      ((p.featureCols.zip shapValues).map
        (fun x => (⟨displayName x.1,
          if 0 < (shapValues.map (fun v => |v|)).sum
            then |x.2| / (shapValues.map (fun v => |v|)).sum * 100 else 0,
          x.2⟩ : Contribution)))
    exact hs.imp (fun hab => of_decide_eq_true hab)

/-- C8 witness: for schema `[ft_temp, ft_month]` and SHAP row `[3, -1]`, the
percentages (75 and 25) sum to 100. -/
theorem get_shap_contributions_spec_witness :
    ((get_shap_contributions ⟨0, 0, ["ft_temp", "ft_month"]⟩ [3, -1] 2).contributions.map
      (fun c => c.percentage)).sum =
      (if 0 < (([3, -1] : List ℚ).map (fun v => |v|)).sum then 100 else 0) :=
  (get_shap_contributions_spec ⟨0, 0, ["ft_temp", "ft_month"]⟩ [3, -1] 2 (by decide)).2.1
